import Mathlib

/-!
Verification of the page-size-preserving PDF rasterize/process/re-export
pipeline (nfshanq/pdf-reader), shallowly embedded from the TypeScript
sources.  TS `number` values that are compared exactly are modelled as `ℚ`;
raw pixel bytes and integer colour components as `ℤ`; page counts and
buffer indices as `ℕ`.  External collaborators (pdf-lib embedding, mupdf
rendering, sharp codecs) are modelled as oracles carried in the data, so
every definition stays executable.
-/

namespace PdfReader

/-- Physical page bounds in points (src/shared/types.ts `PageBounds`). -/
structure PageBounds where
  x0 : ℚ
  y0 : ℚ
  x1 : ℚ
  y1 : ℚ
  width_pt : ℚ
  height_pt : ℚ
deriving DecidableEq

/-- The field `RenderOptions.colorSpace`: "RGB" | "Gray". -/
inductive ColorSpace where
  | rgb
  | gray
deriving DecidableEq

/-- The field `RenderOptions.format`: "PNG" | "JPEG". -/
inductive ImgFormat where
  | png
  | jpeg
deriving DecidableEq

/-- src/shared/types.ts `RenderOptions` (quality is unused by the core). -/
structure RenderOptions where
  dpi : ℚ
  colorSpace : ColorSpace
  format : ImgFormat
deriving DecidableEq

/-- An image buffer as the exporter sees it.  Whether pdf-lib's `embedPng`
/ `embedJpg` succeed on the bytes, and the messages of the errors they
throw when they fail, are behaviour of the external pdf-lib collaborator,
so they are carried as an oracle on the value. -/
structure ImageData where
  pngOk : Bool
  jpegOk : Bool
  pngMsg : String
  jpegMsg : String
deriving DecidableEq

/-- src/shared/types.ts `ProcessedPage` (the exporter reads only
`pageIndex`, `bounds`, `originalImage`, `processedImage`). -/
structure ProcessedPage where
  pageIndex : ℕ
  bounds : PageBounds
  originalImage : ImageData
  processedImage : Option ImageData
  renderOptions : RenderOptions
deriving DecidableEq

/-- Which embedding succeeded for a page. -/
inductive EmbedKind where
  | png
  | jpeg
deriving DecidableEq

/-- One page of the produced PDF: `addPage([width_pt, height_pt])` followed
by `drawImage(embedded, {x:0, y:0, width: width_pt, height: height_pt})`. -/
structure OutPage where
  width : ℚ
  height : ℚ
  embedded : EmbedKind × ImageData
deriving DecidableEq

/-- export.ts line 27: `page.processedImage || page.originalImage`. -/
def imageToEmbed (pg : ProcessedPage) : ImageData :=
  pg.processedImage.getD pg.originalImage

/-- export.ts lines 33-67: try `embedPng`; on failure try `embedJpg`; if
both fail, throw an error naming `page.pageIndex`. -/
def embedForPage (pg : ProcessedPage) : Except String (EmbedKind × ImageData) :=
  let img := imageToEmbed pg
  if img.pngOk then Except.ok (EmbedKind.png, img)
  else if img.jpegOk then Except.ok (EmbedKind.jpeg, img)
  else Except.error
    ("Failed to embed image for page " ++ toString pg.pageIndex ++ ": " ++ img.jpegMsg)

/-- export.ts lines 17-68: the page loop of `exportProcessedPDF`.  Each
page is added with size `[width_pt, height_pt]` taken from `page.bounds`;
a thrown embedding error aborts the loop before `save`, so no bytes are
produced. -/
def exportPagesLoop : List ProcessedPage → Except String (List OutPage)
  | [] => Except.ok []
  | pg :: rest =>
    match embedForPage pg with
    | Except.error m => Except.error m
    | Except.ok e =>
      match exportPagesLoop rest with
      | Except.error m => Except.error m
      | Except.ok l =>
        Except.ok (⟨pg.bounds.width_pt, pg.bounds.height_pt, e⟩ :: l)

/-- export.ts `exportProcessedPDF`: page loop, then `pdfDoc.save()`; the
outer catch rewraps any error as `Failed to export PDF: <message>`. -/
def exportProcessedPDF (pages : List ProcessedPage) : Except String (List OutPage) :=
  match exportPagesLoop pages with
  | Except.ok l => Except.ok l
  | Except.error m => Except.error ("Failed to export PDF: " ++ m)

/-- Document metadata set once on the output document (export.ts 275-297). -/
structure PDFMetadata where
  title : Option String
  author : Option String
  subject : Option String
  creator : Option String
  producer : Option String
  keywords : Option (List String)
deriving DecidableEq

/-- export.ts lines 305-319: the page loop of `exportWithMetadata`.  Unlike
`exportProcessedPDF`, it calls only `embedPng` — there is no JPEG retry and
no page-index-naming throw. -/
def exportWithMetadataLoop : List ProcessedPage → Except String (List OutPage)
  | [] => Except.ok []
  | pg :: rest =>
    let img := imageToEmbed pg
    if img.pngOk then
      match exportWithMetadataLoop rest with
      | Except.error m => Except.error m
      | Except.ok l =>
        Except.ok (⟨pg.bounds.width_pt, pg.bounds.height_pt, (EmbedKind.png, img)⟩ :: l)
    else Except.error img.pngMsg

/-- export.ts `exportWithMetadata`: set metadata on the document, run the
page loop, save; the outer catch rewraps any error as
`Failed to export PDF with metadata: <message>`. -/
def exportWithMetadata (pages : List ProcessedPage) (meta : PDFMetadata) :
    Except String (PDFMetadata × List OutPage) :=
  match exportWithMetadataLoop pages with
  | Except.ok l => Except.ok (meta, l)
  | Except.error m => Except.error ("Failed to export PDF with metadata: " ++ m)

/-- The output page keeps exactly the input page's recorded bounds. -/
def sizeMatches (o : OutPage) (pg : ProcessedPage) : Prop :=
  o.width = pg.bounds.width_pt ∧ o.height = pg.bounds.height_pt

lemma exportPagesLoop_ok_sizes :
    ∀ (pages : List ProcessedPage) (out : List OutPage),
      exportPagesLoop pages = Except.ok out → List.Forall₂ sizeMatches out pages := by
  intro pages
  induction pages with
  | nil =>
    intro out h
    simp only [exportPagesLoop, Except.ok.injEq] at h
    exact h ▸ List.Forall₂.nil
  | cons pg rest ih =>
    intro out h
    unfold exportPagesLoop at h
    cases hembed : embedForPage pg with
    | error m => rw [hembed] at h; exact absurd h (by simp)
    | ok e =>
      rw [hembed] at h
      cases hrec : exportPagesLoop rest with
      | error m => rw [hrec] at h; exact absurd h (by simp)
      | ok l =>
        rw [hrec] at h
        simp only [Except.ok.injEq] at h
        exact h ▸ List.Forall₂.cons ⟨rfl, rfl⟩ (ih l hrec)

lemma exportWithMetadataLoop_ok_sizes :
    ∀ (pages : List ProcessedPage) (out : List OutPage),
      exportWithMetadataLoop pages = Except.ok out → List.Forall₂ sizeMatches out pages := by
  intro pages
  induction pages with
  | nil =>
    intro out h
    simp only [exportWithMetadataLoop, Except.ok.injEq] at h
    exact h ▸ List.Forall₂.nil
  | cons pg rest ih =>
    intro out h
    unfold exportWithMetadataLoop at h
    by_cases hpng : (imageToEmbed pg).pngOk
    · rw [if_pos hpng] at h
      cases hrec : exportWithMetadataLoop rest with
      | error m => rw [hrec] at h; exact absurd h (by simp)
      | ok l =>
        rw [hrec] at h
        simp only [Except.ok.injEq] at h
        exact h ▸ List.Forall₂.cons ⟨rfl, rfl⟩ (ih l hrec)
    · rw [if_neg hpng] at h
      exact absurd h (by simp)

lemma embedForPage_renderOptions (pg : ProcessedPage) (ro : RenderOptions) :
    embedForPage { pg with renderOptions := ro } = embedForPage pg := rfl

lemma exportPagesLoop_renderOptions (ro : RenderOptions) :
    ∀ pages : List ProcessedPage,
      exportPagesLoop (pages.map fun pg => { pg with renderOptions := ro }) =
        exportPagesLoop pages := by
  intro pages
  induction pages with
  | nil => rfl
  | cons pg rest ih =>
    simp only [List.map_cons]
    unfold exportPagesLoop
    rw [embedForPage_renderOptions, ih]

/-- C1.  Every page of a successfully produced PDF — via `exportProcessedPDF`
or `exportWithMetadata` — has physical width and height exactly equal to the
corresponding input page's recorded `bounds.width_pt` / `bounds.height_pt`
(exact `ℚ` equality), and the export result is unchanged when every page's
`renderOptions` (hence the rendering DPI) is replaced arbitrarily: the output
page size comes only from the recorded original bounds, never from the
rendered pixel dimensions. -/
theorem exportProcessedPDF_preserves_bounds_size (pages : List ProcessedPage) :
    (∀ out, exportProcessedPDF pages = Except.ok out →
      List.Forall₂ sizeMatches out pages) ∧
    (∀ meta out, exportWithMetadata pages meta = Except.ok out →
      List.Forall₂ sizeMatches out.2 pages) ∧
    (∀ ro : RenderOptions,
      exportProcessedPDF (pages.map fun pg => { pg with renderOptions := ro }) =
        exportProcessedPDF pages) := by
  refine ⟨?_, ?_, ?_⟩
  · intro out h
    unfold exportProcessedPDF at h
    cases hloop : exportPagesLoop pages with
    | error m => rw [hloop] at h; exact absurd h (by simp)
    | ok l =>
      rw [hloop] at h
      simp only [Except.ok.injEq] at h
      exact h ▸ exportPagesLoop_ok_sizes pages l hloop
  · intro meta out h
    unfold exportWithMetadata at h
    cases hloop : exportWithMetadataLoop pages with
    | error m => rw [hloop] at h; exact absurd h (by simp)
    | ok l =>
      rw [hloop] at h
      simp only [Except.ok.injEq] at h
      exact h ▸ exportWithMetadataLoop_ok_sizes pages l hloop
  · intro ro
    unfold exportProcessedPDF
    rw [exportPagesLoop_renderOptions]

/-- An always-embeddable demo image and an A4-size demo page. -/
def demoImage : ImageData := ⟨true, true, "", ""⟩

def demoBounds : PageBounds := ⟨0, 0, 595.28, 841.89, 595.28, 841.89⟩

def demoRenderOptions : RenderOptions := ⟨150, ColorSpace.rgb, ImgFormat.png⟩

def demoPage : ProcessedPage := ⟨0, demoBounds, demoImage, none, demoRenderOptions⟩

/-- Witness for C1 at a concrete one-page export. -/
theorem exportProcessedPDF_preserves_bounds_size_witness :
    List.Forall₂ sizeMatches
      [⟨(595.28 : ℚ), (841.89 : ℚ), (EmbedKind.png, demoImage)⟩] [demoPage] :=
  (exportProcessedPDF_preserves_bounds_size [demoPage]).1
    [⟨595.28, 841.89, (EmbedKind.png, demoImage)⟩] rfl

/-- An image on which pdf-lib's `embedPng` throws but `embedJpg` succeeds
(e.g. JPEG bytes stored in the buffer). -/
def jpegOnlyImage : ImageData := ⟨false, true, "not a png", ""⟩

def jpegOnlyPage : ProcessedPage := ⟨0, demoBounds, jpegOnlyImage, none, demoRenderOptions⟩

/-- An image on which both `embedPng` and `embedJpg` throw. -/
def unembeddableImage : ImageData := ⟨false, false, "not a png", "not a jpeg"⟩

def unembeddablePage : ProcessedPage := ⟨7, demoBounds, unembeddableImage, none, demoRenderOptions⟩

def emptyMetadata : PDFMetadata := ⟨none, none, none, none, none, none⟩

/-- C4.  Evaluation at the divergence point.  In `exportProcessedPDF` the
PNG→JPEG fallback works as claimed: a page embeddable only as JPEG exports
fine, and a page embeddable as neither aborts the whole export with an error
naming that page's `pageIndex` (no partial result).  But `exportWithMetadata`
— despite its source comment saying it reuses the existing page logic — only
attempts PNG: the same JPEG-only page makes the whole metadata export fail,
with an error that does not name the page index. -/
theorem exportWithMetadata_png_only_divergence :
    exportProcessedPDF [jpegOnlyPage] =
      Except.ok [⟨595.28, 841.89, (EmbedKind.jpeg, jpegOnlyImage)⟩] ∧
    exportProcessedPDF [unembeddablePage] =
      Except.error "Failed to export PDF: Failed to embed image for page 7: not a jpeg" ∧
    exportWithMetadata [jpegOnlyPage] emptyMetadata =
      Except.error "Failed to export PDF with metadata: not a png" := by
  refine ⟨rfl, ?_, rfl⟩
  rfl

/-- An RGB colour triple (`[number, number, number]`); components are raw
byte values. -/
structure RGB where
  r : ℤ
  g : ℤ
  b : ℤ
deriving DecidableEq

/-- The field `ProcessingParams.sharpen`. -/
structure SharpenParams where
  sigma : ℚ
  flat : ℚ
  jagged : ℚ
deriving DecidableEq

/-- The field `ProcessingParams.colorReplace`. -/
structure ColorReplaceParams where
  enabled : Bool
  targetColor : RGB
  replaceColor : RGB
  tolerance : ℤ
deriving DecidableEq

/-- src/shared/types.ts `ProcessingParams`. -/
structure ProcessingParams where
  grayscale : Bool
  contrast : ℚ
  brightness : ℚ
  threshold : ℚ
  sharpen : SharpenParams
  denoise : Bool
  gamma : ℚ
  colorReplace : ColorReplaceParams
deriving DecidableEq

/-- One sharp pipeline operation, as invoked by `processImage`
(part_005 lines 29-66). -/
inductive Stage where
  | gamma (g : ℚ)
  | greyscale
  | linear (contrast brightness : ℚ)
  | blur (radius : ℚ)
  | sharpen (sigma flat jagged : ℚ)
  | threshold (level : ℚ) (grey : Bool)
deriving DecidableEq

/-- The sequence of pipeline stages `processImage` queues up, written as the
source's chain of guarded appends, in source order (part_005 lines 29-66). -/
def appliedStages (p : ProcessingParams) : List Stage :=
  (if p.gamma ≠ 1 then [Stage.gamma p.gamma] else []) ++
  (if p.grayscale then [Stage.greyscale] else []) ++
  (if p.contrast ≠ 1 ∨ p.brightness ≠ 0
    then [Stage.linear p.contrast p.brightness] else []) ++
  (if p.denoise then [Stage.blur (1/2)] else []) ++
  (if p.sharpen.sigma > 0
    then [Stage.sharpen p.sharpen.sigma p.sharpen.flat p.sharpen.jagged] else []) ++
  (if p.threshold > 0 then [Stage.threshold p.threshold p.grayscale] else [])

/-- A symbolic raster image: the decoded input, or a stage applied to an
already-built image. -/
inductive ImgExpr where
  | source
  | stageApp (s : Stage) (e : ImgExpr)
deriving DecidableEq

def applyStages (stages : List Stage) (e : ImgExpr) : ImgExpr :=
  stages.foldl (fun acc s => ImgExpr.stageApp s acc) e

/-- The buffer `processImage` returns: either `pipeline.png().toBuffer()`
directly, or the colour-substitution pass run on that PNG buffer and
re-encoded (part_005 lines 68-85). -/
inductive OutExpr where
  | pngOf (e : ImgExpr)
  | colorReplaced (cr : ColorReplaceParams) (e : ImgExpr)
deriving DecidableEq

/-- part_005 `processImage` (success path): build the guarded stage chain,
then either re-encode to PNG, or — when `colorReplace.enabled` — PNG-encode
and run `replaceColor` on the result. -/
def processImage (p : ProcessingParams) : OutExpr :=
  let e := applyStages (appliedStages p) ImgExpr.source
  if p.colorReplace.enabled then OutExpr.colorReplaced p.colorReplace e
  else OutExpr.pngOf e

/-- The spec's full fixed-order chain for parameters `p`. -/
def fullChain (p : ProcessingParams) : List Stage :=
  [Stage.gamma p.gamma, Stage.greyscale, Stage.linear p.contrast p.brightness,
   Stage.blur (1/2),
   Stage.sharpen p.sharpen.sigma p.sharpen.flat p.sharpen.jagged,
   Stage.threshold p.threshold p.grayscale]

/-- The claim's wording of the per-stage skip conditions: a stage is kept
exactly when its skip condition fails. -/
def stageKept (p : ProcessingParams) : Stage → Bool
  | Stage.gamma _ => decide (p.gamma ≠ 1)
  | Stage.greyscale => p.grayscale
  | Stage.linear _ _ => decide (¬(p.contrast = 1 ∧ p.brightness = 0))
  | Stage.blur _ => p.denoise
  | Stage.sharpen _ _ _ => decide (¬(p.sharpen.sigma ≤ 0))
  | Stage.threshold _ _ => decide (p.threshold ≠ 0)

/-- The claim's stage list: the fixed order, filtered by the skip
conditions. -/
def claimStages (p : ProcessingParams) : List Stage :=
  (fullChain p).filter (stageKept p)

/-- All skip conditions of the claim's no-op configuration hold. -/
def noopConfig (p : ProcessingParams) : Prop :=
  p.gamma = 1 ∧ p.grayscale = false ∧ p.contrast = 1 ∧ p.brightness = 0 ∧
  p.denoise = false ∧ p.sharpen.sigma ≤ 0 ∧ p.threshold = 0 ∧
  p.colorReplace.enabled = false

/-- C2.  With `threshold` in its declared domain (`threshold ≥ 0`, types.ts
gives the range 0-255), `processImage` applies exactly the stages whose skip
conditions fail, in the fixed order gamma → grayscale → linear →
denoise-blur(0.5) → sharpen → threshold (a sublist of the full fixed chain,
so never reordered), runs colour substitution afterwards exactly when
`colorReplace.enabled`, and a no-op configuration returns the pure PNG
re-encoding of the unmodified input. -/
theorem processImage_fixed_stage_order (p : ProcessingParams)
    (ht : 0 ≤ p.threshold) :
    appliedStages p = claimStages p ∧
    List.Sublist (appliedStages p) (fullChain p) ∧
    processImage p =
      (if p.colorReplace.enabled
        then OutExpr.colorReplaced p.colorReplace
          (applyStages (claimStages p) ImgExpr.source)
        else OutExpr.pngOf (applyStages (claimStages p) ImgExpr.source)) ∧
    (noopConfig p → processImage p = OutExpr.pngOf ImgExpr.source) := by
  have hmain : appliedStages p = claimStages p := by
    have hiff : (p.threshold ≠ 0) ↔ (0 < p.threshold) :=
      ⟨fun h => lt_of_le_of_ne ht (Ne.symm h), fun h => Ne.symm (ne_of_lt h)⟩
    simp only [appliedStages, claimStages, fullChain, stageKept,
      List.filter_cons, List.filter_nil, decide_eq_true_eq, not_and_or,
      not_le, hiff]
    split_ifs <;> simp
  refine ⟨hmain, hmain ▸ List.filter_sublist _, ?_, ?_⟩
  · unfold processImage
    rw [hmain]
  · rintro ⟨g1, g2, g3, g4, g5, g6, g7, g8⟩
    have hs : ¬(0 < p.sharpen.sigma) := not_lt.mpr g6
    unfold processImage appliedStages
    simp [g1, g2, g3, g4, g5, g7, g8, hs, applyStages]

/-- Concrete parameters: grayscale + contrast boost + threshold, the rest
disabled. -/
def demoParams : ProcessingParams :=
  ⟨true, 1.5, 10, 128, ⟨0, 1, 2⟩, false, 1,
   ⟨false, ⟨224, 224, 224⟩, ⟨255, 255, 255⟩, 10⟩⟩

/-- Witness for C2 at `demoParams`. -/
theorem processImage_fixed_stage_order_witness :
    (0 : ℚ) ≤ demoParams.threshold ∧
    (appliedStages demoParams = claimStages demoParams ∧
      List.Sublist (appliedStages demoParams) (fullChain demoParams) ∧
      processImage demoParams =
        (if demoParams.colorReplace.enabled
          then OutExpr.colorReplaced demoParams.colorReplace
            (applyStages (claimStages demoParams) ImgExpr.source)
          else OutExpr.pngOf (applyStages (claimStages demoParams) ImgExpr.source)) ∧
      (noopConfig demoParams → processImage demoParams = OutExpr.pngOf ImgExpr.source)) :=
  ⟨by decide, processImage_fixed_stage_order demoParams (by decide)⟩

/-- part_005 lines 87-91: the catch-all wrapper of `processImage`.  A codec
failure is an oracle value: the stage whose sharp operation threw, and the
message it threw with.  The catch block rewraps the message as
`Failed to process image: <message>` — the failing stage's identity is never
consulted — and on failure no processed buffer is returned. -/
def processImageCatch (codecFailure : Option (Stage × String))
    (p : ProcessingParams) : Except String OutExpr :=
  match codecFailure with
  | some f => Except.error ("Failed to process image: " ++ f.2)
  | none => Except.ok (processImage p)

/-- C5 counterexample.  Two different failing stages (gamma vs grayscale)
propagate the *identical* error out of `processImage`, so the propagated
error cannot carry the name of the failing enhancement stage. -/
theorem processImage_error_stage_agnostic :
    processImageCatch (some (Stage.gamma 2, "vips codec failure")) demoParams =
      Except.error "Failed to process image: vips codec failure" ∧
    processImageCatch (some (Stage.greyscale, "vips codec failure")) demoParams =
      Except.error "Failed to process image: vips codec failure" ∧
    processImageCatch (some (Stage.gamma 2, "vips codec failure")) demoParams =
      processImageCatch (some (Stage.greyscale, "vips codec failure")) demoParams :=
  ⟨rfl, rfl, rfl⟩

/-- C5 amended.  A codec failure during `processImage` propagates as an
error with message `Failed to process image: <codec message>` — without the
failing stage's name attached (the wrapping is the same whatever stage
failed) — and the call yields no partial result: it returns a buffer only
when no stage failed, and that buffer is the full chain's output. -/
theorem processImage_error_wrapping (failure : Option (Stage × String))
    (p : ProcessingParams) :
    (∀ st msg, failure = some (st, msg) →
      processImageCatch failure p =
        Except.error ("Failed to process image: " ++ msg)) ∧
    (∀ (st st' : Stage) (msg : String) (p' : ProcessingParams),
      processImageCatch (some (st, msg)) p =
        processImageCatch (some (st', msg)) p') ∧
    (∀ e, processImageCatch failure p = Except.ok e →
      failure = none ∧ e = processImage p) := by
  refine ⟨?_, fun _ _ _ _ => rfl, ?_⟩
  · rintro st msg rfl
    rfl
  · intro e h
    cases failure with
    | none =>
      simp only [processImageCatch, Except.ok.injEq] at h
      exact ⟨rfl, h.symm⟩
    | some f =>
      exact absurd h (by simp [processImageCatch])

/-- Witness for C5's amended theorem at a concrete codec failure. -/
theorem processImage_error_wrapping_witness :
    processImageCatch (some (Stage.greyscale, "boom")) demoParams =
      Except.error ("Failed to process image: " ++ "boom") :=
  (processImage_error_wrapping (some (Stage.greyscale, "boom")) demoParams).1
    Stage.greyscale "boom" rfl

/-- A raw decoded bitmap as sharp's `.raw().toBuffer({resolveWithObject})`
returns it: `info = {width, height, channels}` plus the flat channel-value
buffer (`channels` values per pixel, row-major). -/
structure RawImage where
  width : ℕ
  height : ℕ
  channels : ℕ
  data : List ℤ
deriving DecidableEq

/-- Loop body of `replaceColor` (part_005 lines 447-465) on one pixel's
channel group: compare R, G, B (the first three channel values)
independently against the target within the tolerance; on a match overwrite
R, G, B with the replacement colour, leaving all remaining channels (alpha)
untouched. -/
def replacePixel (target replace : RGB) (tol : ℤ) : List ℤ → List ℤ
  | r :: g :: b :: rest =>
    if |r - target.r| ≤ tol ∧ |g - target.g| ≤ tol ∧ |b - target.b| ≤ tol
    then replace.r :: replace.g :: replace.b :: rest
    else r :: g :: b :: rest
  | px => px

/-- Fuelled grouping of the flat buffer into per-pixel channel groups; with
`fuel ≥ data.length` and `channels ≥ 1` this is exactly the stepping
`i += channels` of the source loop. -/
def chunkDataAux (channels : ℕ) : ℕ → List ℤ → List (List ℤ)
  | 0, _ => []
  | _, [] => []
  | fuel + 1, data => data.take channels :: chunkDataAux channels fuel (data.drop channels)

def chunkData (channels : ℕ) (data : List ℤ) : List (List ℤ) :=
  chunkDataAux channels data.length data

/-- The per-pixel scan of `replaceColor` over the whole flat buffer. -/
def replaceColorData (channels : ℕ) (target replace : RGB) (tol : ℤ)
    (data : List ℤ) : List ℤ :=
  ((chunkData channels data).map (replacePixel target replace tol)).flatten

/-- The buffer `replaceColor` returns is a PNG re-encoding of raw pixel
data (part_005 lines 470-478). -/
inductive EncodedImage where
  | png (img : RawImage)
deriving DecidableEq

/-- part_005 `replaceColor`: decode to raw, run the per-pixel scan on a
copy of the data, rebuild with the same width/height/channels and re-encode
to PNG. -/
def replaceColor (img : RawImage) (target replace : RGB) (tol : ℤ) :
    EncodedImage :=
  EncodedImage.png
    { img with data := replaceColorData img.channels target replace tol img.data }

def gray224 : RGB := ⟨224, 224, 224⟩

def white255 : RGB := ⟨255, 255, 255⟩

/-- A solid 2×2 RGB image, every pixel (224,224,224). -/
def solidGray224 : RawImage :=
  ⟨2, 2, 3, [224, 224, 224, 224, 224, 224, 224, 224, 224, 224, 224, 224]⟩

/-- C3.  The colour-substitution pass overwrites a pixel's R, G, B with the
replacement exactly when all three channel differences are within the
tolerance (independent per-channel checks, no blending), leaves
non-matching pixels and all alpha values unchanged, and re-encodes to PNG;
concretely, the solid (224,224,224) image with tolerance 10, target
(224,224,224), replacement (255,255,255) becomes entirely white, while a
pixel (224,224,244) (difference 20 on B) is untouched. -/
theorem replaceColor_matches_exactly :
    (∀ (t rp : RGB) (tol r g b : ℤ) (rest : List ℤ),
      (|r - t.r| ≤ tol ∧ |g - t.g| ≤ tol ∧ |b - t.b| ≤ tol →
        replacePixel t rp tol (r :: g :: b :: rest) = rp.r :: rp.g :: rp.b :: rest) ∧
      (¬(|r - t.r| ≤ tol ∧ |g - t.g| ≤ tol ∧ |b - t.b| ≤ tol) →
        replacePixel t rp tol (r :: g :: b :: rest) = r :: g :: b :: rest) ∧
      (replacePixel t rp tol (r :: g :: b :: rest)).drop 3 = rest) ∧
    replaceColor solidGray224 gray224 white255 10 =
      EncodedImage.png
        ⟨2, 2, 3, [255, 255, 255, 255, 255, 255, 255, 255, 255, 255, 255, 255]⟩ ∧
    replacePixel gray224 white255 10 [224, 224, 244] = [224, 224, 244] := by
  refine ⟨?_, by decide, by decide⟩
  intro t rp tol r g b rest
  refine ⟨fun h => ?_, fun h => ?_, ?_⟩
  · simp only [replacePixel, if_pos h]
  · simp only [replacePixel, if_neg h]
  · by_cases h : |r - t.r| ≤ tol ∧ |g - t.g| ≤ tol ∧ |b - t.b| ≤ tol
    · simp only [replacePixel, if_pos h, List.drop]
    · simp only [replacePixel, if_neg h, List.drop]

/-- Which parameter a correction warning was recorded for (the source
stores formatted strings; only the corrected parameter's identity matters
here). -/
inductive ParamWarning where
  | contrast
  | brightness
  | threshold
  | gamma
  | sharpenSigma
  | colorTolerance
deriving DecidableEq

/-- The expression `Math.max(lo, Math.min(hi, x))`, the source's clamping idiom. -/
def clampV {α : Type} [LinearOrder α] (lo hi x : α) : α := max lo (min hi x)

/-- The map `value => Math.max(0, Math.min(255, Math.floor(value)))` on a colour
component (`Math.floor` is the identity on the integer byte values
modelled here). -/
def clampComp (v : ℤ) : ℤ := max 0 (min 255 v)

def clampRGB (c : RGB) : RGB := ⟨clampComp c.r, clampComp c.g, clampComp c.b⟩

structure ValidationResult where
  valid : Bool
  correctedParams : ProcessingParams
  warnings : List ParamWarning
deriving DecidableEq

/-- part_005 lines 355-414 `validateAndCorrectParams`: each scalar is
clamped into its range when out of range (with a warning), otherwise left
alone; the colour-replacement block — colour flooring/clamping and the
tolerance check — runs only under `if (correctedParams.colorReplace.enabled)`;
`valid` is `warnings.length === 0`; nothing is ever rejected. -/
def validateAndCorrectParams (p : ProcessingParams) : ValidationResult :=
  let ws :=
    (if p.contrast < 0.1 ∨ 3 < p.contrast then [ParamWarning.contrast] else []) ++
    (if p.brightness < -100 ∨ 100 < p.brightness then [ParamWarning.brightness] else []) ++
    (if p.threshold < 0 ∨ 255 < p.threshold then [ParamWarning.threshold] else []) ++
    (if p.gamma < 0.1 ∨ 3 < p.gamma then [ParamWarning.gamma] else []) ++
    (if p.sharpen.sigma < 0 ∨ 10 < p.sharpen.sigma then [ParamWarning.sharpenSigma] else []) ++
    (if p.colorReplace.enabled = true ∧
        (p.colorReplace.tolerance < 0 ∨ 50 < p.colorReplace.tolerance)
      then [ParamWarning.colorTolerance] else [])
  { valid := ws.length == 0
    correctedParams :=
      { p with
        contrast :=
          if p.contrast < 0.1 ∨ 3 < p.contrast
          then clampV 0.1 3 p.contrast else p.contrast
        brightness :=
          if p.brightness < -100 ∨ 100 < p.brightness
          then clampV (-100) 100 p.brightness else p.brightness
        threshold :=
          if p.threshold < 0 ∨ 255 < p.threshold
          then clampV 0 255 p.threshold else p.threshold
        gamma :=
          if p.gamma < 0.1 ∨ 3 < p.gamma
          then clampV 0.1 3 p.gamma else p.gamma
        sharpen :=
          { p.sharpen with
            sigma :=
              if p.sharpen.sigma < 0 ∨ 10 < p.sharpen.sigma
              then clampV 0 10 p.sharpen.sigma else p.sharpen.sigma }
        colorReplace :=
          if p.colorReplace.enabled = true then
            { p.colorReplace with
              targetColor := clampRGB p.colorReplace.targetColor
              replaceColor := clampRGB p.colorReplace.replaceColor
              tolerance :=
                if p.colorReplace.tolerance < 0 ∨ 50 < p.colorReplace.tolerance
                then clampV 0 50 p.colorReplace.tolerance
                else p.colorReplace.tolerance }
          else p.colorReplace }
    warnings := ws }

/-- Parameters with colour replacement disabled and tolerance 100, far
outside [0, 50]. -/
def disabledBadTolParams : ProcessingParams :=
  ⟨false, 1, 0, 0, ⟨0, 1, 2⟩, false, 1,
   ⟨false, ⟨224, 224, 224⟩, ⟨255, 255, 255⟩, 100⟩⟩

/-- C6 counterexample.  An out-of-range `colorReplace.tolerance` of 100 is
*not* clamped and draws *no* warning when `colorReplace.enabled` is false:
the whole params value comes back unchanged with an empty warning list,
contradicting "every out-of-range value is clamped ... and a warning
recording the correction is returned". -/
theorem validate_disabled_tolerance_unclamped :
    (validateAndCorrectParams disabledBadTolParams).correctedParams.colorReplace.tolerance = 100 ∧
    ¬((100 : ℤ) ≤ 50) ∧
    (validateAndCorrectParams disabledBadTolParams).warnings = [] ∧
    (validateAndCorrectParams disabledBadTolParams).correctedParams = disabledBadTolParams := by
  refine ⟨?_, by norm_num, ?_, ?_⟩ <;>
    norm_num [validateAndCorrectParams, disabledBadTolParams]

lemma clampV_eq_self {α : Type} [LinearOrder α] {lo hi x : α}
    (h1 : lo ≤ x) (h2 : x ≤ hi) : clampV lo hi x = x := by
  unfold clampV
  rw [min_eq_right h2, max_eq_right h1]

def inRangeRGB (c : RGB) : Prop :=
  0 ≤ c.r ∧ c.r ≤ 255 ∧ 0 ≤ c.g ∧ c.g ≤ 255 ∧ 0 ≤ c.b ∧ c.b ≤ 255

lemma clampRGB_eq_self {c : RGB} (h : inRangeRGB c) : clampRGB c = c := by
  obtain ⟨h1, h2, h3, h4, h5, h6⟩ := h
  unfold clampRGB clampComp
  rw [min_eq_right h2, max_eq_right h1, min_eq_right h4, max_eq_right h3,
    min_eq_right h6, max_eq_right h5]

/-- Every documented range constraint holds of `p`. -/
def inRangeParams (p : ProcessingParams) : Prop :=
  (0.1 ≤ p.contrast ∧ p.contrast ≤ 3) ∧
  (-100 ≤ p.brightness ∧ p.brightness ≤ 100) ∧
  (0 ≤ p.threshold ∧ p.threshold ≤ 255) ∧
  (0.1 ≤ p.gamma ∧ p.gamma ≤ 3) ∧
  (0 ≤ p.sharpen.sigma ∧ p.sharpen.sigma ≤ 10) ∧
  (p.colorReplace.enabled = true →
    (0 ≤ p.colorReplace.tolerance ∧ p.colorReplace.tolerance ≤ 50) ∧
    inRangeRGB p.colorReplace.targetColor ∧ inRangeRGB p.colorReplace.replaceColor)

lemma mem_ite_nil {α : Type} (c : Prop) [Decidable c] (a : α) (l : List α) :
    a ∈ (if c then l else []) ↔ c ∧ a ∈ l := by
  by_cases h : c <;> simp [h]

/-- Parameters with `contrast = 5.0`, everything else in range. -/
def contrast5Params : ProcessingParams :=
  ⟨false, 5, 0, 0, ⟨0, 1, 2⟩, false, 1,
   ⟨false, ⟨224, 224, 224⟩, ⟨255, 255, 255⟩, 10⟩⟩

/-- C6 amended.  `validateAndCorrectParams` never rejects: each scalar
(contrast, brightness, threshold, gamma, sharpen.sigma) always comes back
clamped into its documented range — which leaves in-range values unchanged
— with a warning recorded exactly when the input was out of range;
`colorReplace.tolerance`, however, is clamped and warned about only when
`colorReplace.enabled` is set (otherwise it passes through untouched);
`valid` just reports an empty warning list; fully in-range parameters come
back verbatim with no warnings; and an input contrast of 5.0 is corrected
to 3.0 with a warning. -/
theorem validateAndCorrectParams_clamps (p : ProcessingParams) :
    ((validateAndCorrectParams p).correctedParams.contrast = clampV 0.1 3 p.contrast ∧
      (ParamWarning.contrast ∈ (validateAndCorrectParams p).warnings ↔
        (p.contrast < 0.1 ∨ 3 < p.contrast))) ∧
    ((validateAndCorrectParams p).correctedParams.brightness = clampV (-100) 100 p.brightness ∧
      (ParamWarning.brightness ∈ (validateAndCorrectParams p).warnings ↔
        (p.brightness < -100 ∨ 100 < p.brightness))) ∧
    ((validateAndCorrectParams p).correctedParams.threshold = clampV 0 255 p.threshold ∧
      (ParamWarning.threshold ∈ (validateAndCorrectParams p).warnings ↔
        (p.threshold < 0 ∨ 255 < p.threshold))) ∧
    ((validateAndCorrectParams p).correctedParams.gamma = clampV 0.1 3 p.gamma ∧
      (ParamWarning.gamma ∈ (validateAndCorrectParams p).warnings ↔
        (p.gamma < 0.1 ∨ 3 < p.gamma))) ∧
    ((validateAndCorrectParams p).correctedParams.sharpen.sigma = clampV 0 10 p.sharpen.sigma ∧
      (ParamWarning.sharpenSigma ∈ (validateAndCorrectParams p).warnings ↔
        (p.sharpen.sigma < 0 ∨ 10 < p.sharpen.sigma))) ∧
    ((validateAndCorrectParams p).correctedParams.colorReplace.tolerance =
        (if p.colorReplace.enabled = true
          then clampV 0 50 p.colorReplace.tolerance
          else p.colorReplace.tolerance) ∧
      (ParamWarning.colorTolerance ∈ (validateAndCorrectParams p).warnings ↔
        (p.colorReplace.enabled = true ∧
          (p.colorReplace.tolerance < 0 ∨ 50 < p.colorReplace.tolerance)))) ∧
    (validateAndCorrectParams p).valid =
      ((validateAndCorrectParams p).warnings.length == 0) ∧
    (inRangeParams p →
      (validateAndCorrectParams p).correctedParams = p ∧
      (validateAndCorrectParams p).warnings = []) ∧
    (validateAndCorrectParams contrast5Params).correctedParams.contrast = 3 ∧
    ParamWarning.contrast ∈ (validateAndCorrectParams contrast5Params).warnings := by
  have hclampQ : ∀ (lo hi x : ℚ), lo ≤ hi →
      (if x < lo ∨ hi < x then clampV lo hi x else x) = clampV lo hi x := by
    intro lo hi x _
    by_cases h : x < lo ∨ hi < x
    · rw [if_pos h]
    · rw [if_neg h]
      push_neg at h
      exact (clampV_eq_self h.1 h.2).symm
  have hclampZ : ∀ (lo hi x : ℤ), lo ≤ hi →
      (if x < lo ∨ hi < x then clampV lo hi x else x) = clampV lo hi x := by
    intro lo hi x _
    by_cases h : x < lo ∨ hi < x
    · rw [if_pos h]
    · rw [if_neg h]
      push_neg at h
      exact (clampV_eq_self h.1 h.2).symm
  refine ⟨⟨?_, ?_⟩, ⟨?_, ?_⟩, ⟨?_, ?_⟩, ⟨?_, ?_⟩, ⟨?_, ?_⟩, ⟨?_, ?_⟩, rfl, ?_,
    by norm_num [validateAndCorrectParams, contrast5Params, clampV, min_def, max_def],
    by norm_num [validateAndCorrectParams, contrast5Params]⟩
  · exact hclampQ 0.1 3 p.contrast (by norm_num)
  · simp only [validateAndCorrectParams, List.mem_append, mem_ite_nil,
      List.mem_singleton]
    simp
  · exact hclampQ (-100) 100 p.brightness (by norm_num)
  · simp only [validateAndCorrectParams, List.mem_append, mem_ite_nil,
      List.mem_singleton]
    simp
  · exact hclampQ 0 255 p.threshold (by norm_num)
  · simp only [validateAndCorrectParams, List.mem_append, mem_ite_nil,
      List.mem_singleton]
    simp
  · exact hclampQ 0.1 3 p.gamma (by norm_num)
  · simp only [validateAndCorrectParams, List.mem_append, mem_ite_nil,
      List.mem_singleton]
    simp
  · exact hclampQ 0 10 p.sharpen.sigma (by norm_num)
  · simp only [validateAndCorrectParams, List.mem_append, mem_ite_nil,
      List.mem_singleton]
    simp
  · by_cases he : p.colorReplace.enabled = true
    · simp only [validateAndCorrectParams, he, if_true]
      exact hclampZ 0 50 p.colorReplace.tolerance (by norm_num)
    · simp only [validateAndCorrectParams, he, if_false]
      simp [he]
  · simp only [validateAndCorrectParams, List.mem_append, mem_ite_nil,
      List.mem_singleton]
    simp
  · rintro ⟨⟨c1, c2⟩, ⟨b1, b2⟩, ⟨t1, t2⟩, ⟨g1, g2⟩, ⟨s1, s2⟩, hcr⟩
    have n1 : ¬(p.contrast < 0.1 ∨ 3 < p.contrast) := by
      push_neg
      exact ⟨c1, c2⟩
    have n2 : ¬(p.brightness < -100 ∨ 100 < p.brightness) := by
      push_neg
      exact ⟨b1, b2⟩
    have n3 : ¬(p.threshold < 0 ∨ 255 < p.threshold) := by
      push_neg
      exact ⟨t1, t2⟩
    have n4 : ¬(p.gamma < 0.1 ∨ 3 < p.gamma) := by
      push_neg
      exact ⟨g1, g2⟩
    have n5 : ¬(p.sharpen.sigma < 0 ∨ 10 < p.sharpen.sigma) := by
      push_neg
      exact ⟨s1, s2⟩
    constructor
    · by_cases he : p.colorReplace.enabled = true
      · obtain ⟨⟨tl1, tl2⟩, htc, hrc⟩ := hcr he
        have n6 : ¬(p.colorReplace.tolerance < 0 ∨ 50 < p.colorReplace.tolerance) := by
          push_neg
          exact ⟨tl1, tl2⟩
        simp only [validateAndCorrectParams, if_neg n1, if_neg n2, if_neg n3,
          if_neg n4, if_neg n5, if_neg n6, if_pos he,
          clampRGB_eq_self htc, clampRGB_eq_self hrc]
      · simp only [validateAndCorrectParams, if_neg n1, if_neg n2, if_neg n3,
          if_neg n4, if_neg n5, if_neg he]
    · have n6 : ¬(p.colorReplace.enabled = true ∧
          (p.colorReplace.tolerance < 0 ∨ 50 < p.colorReplace.tolerance)) := by
        rintro ⟨he, hout⟩
        obtain ⟨⟨tl1, tl2⟩, -, -⟩ := hcr he
        rcases hout with h | h
        · exact absurd tl1 (not_le.mpr h)
        · exact absurd tl2 (not_le.mpr h)
      simp only [validateAndCorrectParams, if_neg n1, if_neg n2, if_neg n3,
        if_neg n4, if_neg n5, if_neg n6, List.append_nil]

/-- Witness for C6's amended theorem: fully in-range parameters come back
verbatim with no warnings. -/
theorem validateAndCorrectParams_clamps_witness :
    inRangeParams demoParams ∧
    ((validateAndCorrectParams demoParams).correctedParams = demoParams ∧
      (validateAndCorrectParams demoParams).warnings = []) :=
  ⟨by norm_num [inRangeParams, demoParams],
   (validateAndCorrectParams_clamps demoParams).2.2.2.2.2.2.2.1
     (by norm_num [inRangeParams, demoParams])⟩

/-- part_006 `calculatePixelSize`: `scale = dpi / 72`, pixel size
`Math.floor(width_pt * scale) × Math.floor(height_pt * scale)`. -/
def calculatePixelSize (bounds : PageBounds) (dpi : ℚ) : ℤ × ℤ :=
  let scale := dpi / 72
  (⌊bounds.width_pt * scale⌋, ⌊bounds.height_pt * scale⌋)

/-- part_006 `renderPage` lines 24-25: `mupdf.Matrix.scale(scale, scale)`
with `scale = options.dpi / 72` — the same factor is passed for both
axes. -/
def renderMatrix (options : RenderOptions) : ℚ × ℚ :=
  let scale := options.dpi / 72
  (scale, scale)

/-- Modelled from the spec: `page.toPixmap(matrix, ...)` belongs to the
external mupdf collaborator; per the spec's rasterizer contract the
resulting bitmap has `floor(width_pt*sx) × floor(height_pt*sy)` pixels. -/
def toPixmapSize (bounds : PageBounds) (sx sy : ℚ) : ℤ × ℤ :=
  (⌊bounds.width_pt * sx⌋, ⌊bounds.height_pt * sy⌋)

/-- Pixel dimensions of the bitmap `renderPage` produces. -/
def renderPageSize (bounds : PageBounds) (options : RenderOptions) : ℤ × ℤ :=
  toPixmapSize bounds (renderMatrix options).1 (renderMatrix options).2

/-- C7.  Rendering applies the single scale factor `dpi / 72` identically
on both axes (never anisotropic); the rendered raster measures
`floor(width_pt * s) × floor(height_pt * s)` pixels, and
`calculatePixelSize` returns exactly these values. -/
theorem renderPage_isotropic_floor (bounds : PageBounds) (options : RenderOptions)
    (hw : 0 < bounds.width_pt) (hh : 0 < bounds.height_pt) :
    (renderMatrix options).1 = (renderMatrix options).2 ∧
    (renderMatrix options).1 = options.dpi / 72 ∧
    renderPageSize bounds options =
      (⌊bounds.width_pt * (options.dpi / 72)⌋, ⌊bounds.height_pt * (options.dpi / 72)⌋) ∧
    calculatePixelSize bounds options.dpi = renderPageSize bounds options :=
  ⟨rfl, rfl, rfl, rfl⟩

/-- Witness for C7 on the A4 demo page at 150 DPI. -/
theorem renderPage_isotropic_floor_witness :
    (renderMatrix demoRenderOptions).1 = (renderMatrix demoRenderOptions).2 ∧
    (renderMatrix demoRenderOptions).1 = demoRenderOptions.dpi / 72 ∧
    renderPageSize demoBounds demoRenderOptions =
      (⌊demoBounds.width_pt * (demoRenderOptions.dpi / 72)⌋,
        ⌊demoBounds.height_pt * (demoRenderOptions.dpi / 72)⌋) ∧
    calculatePixelSize demoBounds demoRenderOptions.dpi =
      renderPageSize demoBounds demoRenderOptions :=
  renderPage_isotropic_floor demoBounds demoRenderOptions
    (by norm_num [demoBounds]) (by norm_num [demoBounds])

/-- part_006 `renderPagePreview` lines 131-135: the derived preview DPI
`max(72 * min(maxWidth/width_pt, maxHeight/height_pt, 2.0), 72)`. -/
def renderPagePreviewDPI (bounds : PageBounds) (maxWidth maxHeight : ℚ) : ℚ :=
  let scaleX := maxWidth / bounds.width_pt
  let scaleY := maxHeight / bounds.height_pt
  let scale := min (min scaleX scaleY) 2
  max (72 * scale) 72

/-- Pixel dimensions of the preview: `renderPage` at the derived DPI
(RGB, PNG). -/
def renderPagePreviewSize (bounds : PageBounds) (maxWidth maxHeight : ℚ) : ℤ × ℤ :=
  renderPageSize bounds
    ⟨renderPagePreviewDPI bounds maxWidth maxHeight, ColorSpace.rgb, ImgFormat.png⟩

/-- C9 counterexample.  At the source's own default box 400×600 on an A4
page, the 72-DPI floor overrides the fit-the-box scale: the preview renders
595×841 px, exceeding `maxWidth = 400` — the rendered preview does not fit
the box. -/
theorem renderPagePreview_exceeds_box :
    renderPagePreviewDPI demoBounds 400 600 = 72 ∧
    renderPagePreviewSize demoBounds 400 600 = (595, 841) ∧
    ¬((595 : ℤ) ≤ 400) := by
  have hdpi : renderPagePreviewDPI demoBounds 400 600 = 72 := by
    show max (72 * min (min ((400 : ℚ) / 595.28) ((600 : ℚ) / 841.89)) 2) 72 = 72
    rw [min_eq_left (by norm_num), min_eq_left (by norm_num),
      max_eq_right (by norm_num)]
  refine ⟨hdpi, ?_, by norm_num⟩
  show toPixmapSize demoBounds _ _ = (595, 841)
  rw [show renderMatrix ⟨renderPagePreviewDPI demoBounds 400 600, ColorSpace.rgb,
      ImgFormat.png⟩ = (renderPagePreviewDPI demoBounds 400 600 / 72,
      renderPagePreviewDPI demoBounds 400 600 / 72) from rfl, hdpi]
  show ((⌊(595.28 : ℚ) * (72 / 72)⌋ : ℤ), (⌊(841.89 : ℚ) * (72 / 72)⌋ : ℤ)) = (595, 841)
  norm_num

/-- C9 amended.  The derived preview DPI always lies in [72, 144]
(at most a 2× scale, floored at 72); the rendered preview is guaranteed to
fit the (maxWidth, maxHeight) box only when the box does not demand
downscaling below the 72-DPI floor, i.e. when
`min(maxWidth/width_pt, maxHeight/height_pt) ≥ 1`; in that regime both
pixel dimensions stay within the box. -/
theorem renderPagePreview_dpi_and_fit (bounds : PageBounds) (maxWidth maxHeight : ℚ)
    (hw : 0 < bounds.width_pt) (hh : 0 < bounds.height_pt) :
    72 ≤ renderPagePreviewDPI bounds maxWidth maxHeight ∧
    renderPagePreviewDPI bounds maxWidth maxHeight ≤ 144 ∧
    (1 ≤ min (maxWidth / bounds.width_pt) (maxHeight / bounds.height_pt) →
      ((renderPagePreviewSize bounds maxWidth maxHeight).1 : ℚ) ≤ maxWidth ∧
      ((renderPagePreviewSize bounds maxWidth maxHeight).2 : ℚ) ≤ maxHeight) := by
  have hs2 : min (min (maxWidth / bounds.width_pt) (maxHeight / bounds.height_pt)) 2 ≤ 2 :=
    min_le_right _ _
  refine ⟨le_max_right _ _, ?_, ?_⟩
  · apply max_le _ (by norm_num)
    linarith
  · intro h1
    set sx := maxWidth / bounds.width_pt with hsx
    set sy := maxHeight / bounds.height_pt with hsy
    set s := min (min sx sy) 2 with hsdef
    have hs1 : (1 : ℚ) ≤ s := le_min h1 (by norm_num)
    have hdpi : renderPagePreviewDPI bounds maxWidth maxHeight = 72 * s := by
      show max (72 * s) 72 = 72 * s
      exact max_eq_left (by linarith)
    have hssx : s ≤ sx := le_trans (min_le_left _ _) (min_le_left _ _)
    have hssy : s ≤ sy := le_trans (min_le_left _ _) (min_le_right _ _)
    have hmw : bounds.width_pt * s ≤ maxWidth := by
      calc bounds.width_pt * s ≤ bounds.width_pt * sx :=
            mul_le_mul_of_nonneg_left hssx hw.le
        _ = maxWidth := by
            rw [hsx, mul_comm, div_mul_cancel₀ _ (ne_of_gt hw)]
    have hmh : bounds.height_pt * s ≤ maxHeight := by
      calc bounds.height_pt * s ≤ bounds.height_pt * sy :=
            mul_le_mul_of_nonneg_left hssy hh.le
        _ = maxHeight := by
            rw [hsy, mul_comm, div_mul_cancel₀ _ (ne_of_gt hh)]
    have hdiv : renderPagePreviewDPI bounds maxWidth maxHeight / 72 = s := by
      rw [hdpi, mul_comm, mul_div_assoc]
      norm_num
    constructor
    · show ((⌊bounds.width_pt * (renderPagePreviewDPI bounds maxWidth maxHeight / 72)⌋ : ℤ) : ℚ) ≤ maxWidth
      rw [hdiv]
      exact le_trans (Int.floor_le _) hmw
    · show ((⌊bounds.height_pt * (renderPagePreviewDPI bounds maxWidth maxHeight / 72)⌋ : ℤ) : ℚ) ≤ maxHeight
      rw [hdiv]
      exact le_trans (Int.floor_le _) hmh

/-- Witness for C9's amended theorem: a 1200×1700 box around the A4 page. -/
theorem renderPagePreview_dpi_and_fit_witness :
    72 ≤ renderPagePreviewDPI demoBounds 1200 1700 ∧
    renderPagePreviewDPI demoBounds 1200 1700 ≤ 144 ∧
    (1 ≤ min ((1200 : ℚ) / demoBounds.width_pt) ((1700 : ℚ) / demoBounds.height_pt) →
      ((renderPagePreviewSize demoBounds 1200 1700).1 : ℚ) ≤ 1200 ∧
      ((renderPagePreviewSize demoBounds 1200 1700).2 : ℚ) ≤ 1700) :=
  renderPagePreview_dpi_and_fit demoBounds 1200 1700
    (by norm_num [demoBounds]) (by norm_num [demoBounds])

/-- The opened mupdf document as `getPageBounds` sees it: a page count
(`document.countPages()`) and, per page, what
`document.loadPage(i).getBounds()` yields — a rectangle, or the error the
external decoder throws for that page. -/
structure MuDocument where
  pageCount : ℕ
  pageBoundsOf : ℕ → Except String (ℚ × ℚ × ℚ × ℚ)

/-- pdf.ts lines 173-181: the fixed A4 fallback bounds. -/
def a4Fallback : PageBounds := ⟨0, 0, 595.28, 841.89, 595.28, 841.89⟩

/-- pdf.ts lines 147-186 `getPageBounds`: for `i` in `0..pageCount`, read
the page's rectangle and record `{x0,y0,x1,y1, width_pt = x1-x0,
height_pt = y1-y0}`; when reading a page fails, push the A4 fallback
instead and continue with the remaining pages. -/
def getPageBounds (doc : MuDocument) : List PageBounds :=
  (List.range doc.pageCount).map fun i =>
    match doc.pageBoundsOf i with
    | Except.ok (x0, y0, x1, y1) => ⟨x0, y0, x1, y1, x1 - x0, y1 - y0⟩
    | Except.error _ => a4Fallback

/-- C8.  `getPageBounds` returns exactly one entry per page, in page order;
entry `i` is computed from page `i`'s own extraction result alone —
the recorded rectangle on success, the fixed A4 fallback
(0, 0, 595.28, 841.89) on failure — so one page's failure neither aborts
the document nor disturbs any other page's entry. -/
theorem getPageBounds_per_page (doc : MuDocument) :
    (getPageBounds doc).length = doc.pageCount ∧
    ∀ i : ℕ, i < doc.pageCount →
      (getPageBounds doc)[i]? = some
        (match doc.pageBoundsOf i with
          | Except.ok (x0, y0, x1, y1) => ⟨x0, y0, x1, y1, x1 - x0, y1 - y0⟩
          | Except.error _ => a4Fallback) := by
  constructor
  · simp [getPageBounds]
  · intro i hi
    simp [getPageBounds, List.getElem?_map, List.getElem?_range, hi]

/-- A two-page document whose first page's geometry read throws and whose
second is US-Letter. -/
def demoDoc : MuDocument :=
  ⟨2, fun i => if i = 0 then Except.error "cannot load page" else Except.ok (0, 0, 612, 792)⟩

/-- Witness for C8: on `demoDoc`, the failing page 0 gets the A4 fallback
while page 1 still gets its own bounds. -/
theorem getPageBounds_per_page_witness :
    (getPageBounds demoDoc).length = 2 ∧
    (getPageBounds demoDoc)[0]? = some a4Fallback ∧
    (getPageBounds demoDoc)[1]? = some ⟨0, 0, 612, 792, 612 - 0, 792 - 0⟩ := by
  obtain ⟨hlen, hent⟩ := getPageBounds_per_page demoDoc
  refine ⟨hlen, ?_, ?_⟩
  · rw [hent 0 (by decide)]
    rfl
  · rw [hent 1 (by decide)]
    rfl

/-- The loop starts of `replaceColor`'s scan
(`for (let i = 0; i < data.length; i += channels)`, part_005 line 447):
the multiples of `channels` below `len`. -/
def loopStarts (channels len : ℕ) : List ℕ :=
  (List.range ((len + channels - 1) / channels)).map (· * channels)

/-- Every buffer index the loop body reads or writes: `i`, `i + 1`,
`i + 2` for each loop start `i` (part_005 lines 448-461). -/
def replaceColorAccesses (channels len : ℕ) : List ℕ :=
  (loopStarts channels len).flatMap fun i => [i, i + 1, i + 2]

/-- C10.  With at least 3 channels, every index the colour-substitution
loop reads or writes on a `width*height*channels` raw buffer is in bounds;
the hypothesis is needed: on a 1-channel buffer of 4 bytes (2×2 grayscale)
the loop's final iteration touches indices 4 and 5, past the end, and
already its first iteration reads indices 1 and 2, which belong to the
neighbouring pixels. -/
theorem replaceColor_access_safety :
    (∀ w h c : ℕ, 3 ≤ c →
      ∀ i ∈ replaceColorAccesses c (w * h * c), i < w * h * c) ∧
    (4 ∈ replaceColorAccesses 1 4 ∧ 5 ∈ replaceColorAccesses 1 4 ∧ ¬(4 < 4) ∧ ¬(5 < 4)) ∧
    (1 ∈ replaceColorAccesses 1 4 ∧ 2 ∈ replaceColorAccesses 1 4) := by
  refine ⟨?_, by decide, by decide⟩
  intro w h c hc i hi
  have hcpos : 0 < c := lt_of_lt_of_le (by norm_num) hc
  simp only [replaceColorAccesses, loopStarts, List.mem_flatMap, List.mem_map,
    List.mem_range] at hi
  obtain ⟨start, ⟨k, hk, hkc⟩, hmem⟩ := hi
  have hceil : (w * h * c + c - 1) / c = w * h := by
    have h1 : w * h * c + c - 1 = (c - 1) + w * h * c := by omega
    rw [h1, Nat.add_mul_div_right _ _ hcpos, Nat.div_eq_of_lt (by omega),
      Nat.zero_add]
  rw [hceil] at hk
  have h2 : k * c + c ≤ w * h * c := by
    calc k * c + c = (k + 1) * c := by ring
      _ ≤ w * h * c := Nat.mul_le_mul_right c (Nat.succ_le_of_lt hk)
  have h3 : k * c + 2 < w * h * c := by linarith
  subst hkc
  simp only [List.mem_cons, List.not_mem_nil, or_false] at hmem
  rcases hmem with rfl | rfl | rfl
  · linarith
  · linarith
  · exact h3

/-- Witness for C10 on a 1×1 3-channel buffer: the last read index, 2, is
in bounds. -/
theorem replaceColor_access_safety_witness :
    3 ≤ 3 ∧ 2 ∈ replaceColorAccesses 3 (1 * 1 * 3) ∧ 2 < 1 * 1 * 3 :=
  ⟨by decide, by decide, replaceColor_access_safety.1 1 1 3 (by decide) 2 (by decide)⟩

end PdfReader
